import Mathlib

/-!
Verification of the lh-bulk-audit scheduling and aggregation engine
(source: src/bin/lh-audit.js) against its natural-language specification.

The embedding models:
- the condensed metric record produced by condenseReport (Metric, MetricSample);
- the geometric-mean aggregation performed in multipleTimes via computeGmean;
- the per-attempt record emission of runLighthouse (PARTIAL rows on success,
  the "Error: site not loaded" row written by logError on failure) and the
  GMEAN row appended by multipleTimes;
- the time-window predicate checkTime;
- the doScript / pauseScript scheduling loop as a step function on a
  scheduler state, with the once-per-minute resume timer of pauseScript
  modelled as an event trace;
- the name-resolution environment of the logError then-callback, to settle
  the undefined-variable claim;
- formatScore, over exact rationals.
-/

namespace LhAudit

/-- The twelve keys of the object returned by condenseReport
(src/bin/lh-audit.js lines 84-99). -/
inductive Metric
  | performanceScore
  | firstContentfulPaint
  | firstContentfulPaintScore
  | firstMeaningfulPaint
  | firstMeaningfulPaintScore
  | speedIndex
  | speedIndexScore
  | timeToInteractive
  | timeToInteractiveScore
  | firstCpuIdle
  | firstCpuIdleScore
  | totalByteWeight
deriving DecidableEq

/-- One condensed audit report: a value for each metric key. -/
def MetricSample : Type := Metric → ℝ

/-- The compute-gmean library used at line 211: exp of the mean of the
natural logs of the values. -/
noncomputable def computeGmean (xs : List ℝ) : ℝ :=
  Real.exp ((xs.map Real.log).sum / (xs.length : ℝ))

/-- The aggregation loop of multipleTimes (lines 208-212): for each key of
the first result, apply computeGmean to the values of that key across the
collected results. -/
noncomputable def aggregateSamples (samples : List MetricSample) : MetricSample :=
  fun m => computeGmean (samples.map (fun s => s m))

/-- The kind of a persisted row: the TYPE column written by addToLogs
("PARTIAL" or "GMEAN") or by logError ("Error: site not loaded"). -/
inductive RecordKind
  | partialKind
  | aggregateKind
  | errorKind
deriving DecidableEq

/-- One persisted row of logged-results.csv: site URL, kind, and the metric
payload (none for the error row, which has no metric columns). -/
structure RunRecord where
  site : String
  rkind : RecordKind
  payload : Option MetricSample

/-- Number of persisted rows of a given kind. -/
def countKind (k : RecordKind) (recs : List RunRecord) : ℕ :=
  recs.countP (fun rec => decide (rec.rkind = k))

/-- One audit attempt (runLighthouse, lines 43-80), given the outcome of the
external lighthouse call: on success it writes one PARTIAL row and returns
the condensed report; on failure it calls logError, which writes one
"Error: site not loaded" row, and returns null. -/
def runLighthouse (url : String) (outcome : Option MetricSample) :
    List RunRecord × Option MetricSample :=
  match outcome with
  | some report => ([⟨url, RecordKind.partialKind, some report⟩], some report)
  | none => ([⟨url, RecordKind.errorKind, none⟩], none)

/-- The fixed batch size: the loop of multipleTimes iterates over
new Array(3) (line 200), i.e. exactly three attempts per URL. -/
def attemptsPerUrl : ℕ := 3

/-- The body of multipleTimes (lines 197-217) over an explicit list of
attempt outcomes: run each attempt, collect the truthy results, and if any
attempt succeeded append one GMEAN row with the aggregated sample. -/
noncomputable def multipleTimesOnList (url : String)
    (attempts : List (Option MetricSample)) : List RunRecord :=
  let attemptRecords := (attempts.map (fun o => (runLighthouse url o).1)).flatten
  let multipleResults := attempts.filterMap (fun o => (runLighthouse url o).2)
  if multipleResults.isEmpty then
    attemptRecords
  else
    attemptRecords ++ [⟨url, RecordKind.aggregateKind, some (aggregateSamples multipleResults)⟩]

/-- multipleTimes (lines 197-217): exactly attemptsPerUrl attempts, with the
outcome of attempt number i supplied by the oracle. -/
noncomputable def multipleTimes (url : String) (oracle : ℕ → Option MetricSample) :
    List RunRecord :=
  multipleTimesOnList url ((List.range attemptsPerUrl).map oracle)

/-- checkTime (lines 219-227), as a function of the hour-of-day and the
weekday number extracted from the Australia/Sydney zoned clock:
hour >= 9 && hour <= 18 && weekday !== 0 && weekday !== 6. -/
def checkTime (hour : ℕ) (weekday : ℕ) : Bool :=
  decide (9 ≤ hour) && decide (hour ≤ 18) && decide (weekday ≠ 0) && decide (weekday ≠ 6)

/-- formatScore (lines 143-149) without the colorize branch: the decimal
string of Math.floor(score * 100), padded with padStart(3). Scores are
exact rationals in the model. -/
def padStart (s : String) (n : ℕ) : String :=
  String.mk (List.replicate (n - s.length) ' ') ++ s

/-- formatScore over an exact rational score. -/
def formatScore (score : ℚ) : String :=
  padStart (toString (Int.floor (score * 100))) 3

/-- Scheduler state: doScript iterating at cursor i, pauseScript waiting at
cursor i, or the loop exhausted. -/
inductive SchedState
  | processing (i : ℕ)
  | suspended (i : ℕ)
  | done
deriving DecidableEq

/-- One scheduling decision of doScript / pauseScript (lines 229-251) for a
URL list of length len, given the current value of checkTime. In state
processing i: if the list is exhausted the loop ends; otherwise, when the
window is open, URL i is audited (emitted) and the cursor advances; when it
is closed, pauseScript(i) is entered and no audit is attempted. In state
suspended i: a timer tick re-evaluates checkTime and on success resumes
doScript at the same cursor i, auditing nothing in that tick. -/
def schedStep (len : ℕ) (allowed : Bool) : SchedState → SchedState × Option ℕ
  | SchedState.processing i =>
      if i < len then
        if allowed then (SchedState.processing (i + 1), some i)
        else (SchedState.suspended i, none)
      else (SchedState.done, none)
  | SchedState.suspended i =>
      if allowed then (SchedState.processing i, none) else (SchedState.suspended i, none)
  | SchedState.done => (SchedState.done, none)

/-- Run the scheduler over a list of successive checkTime values, returning
the final state and the list of URL indices audited, in order. -/
def schedRun (len : ℕ) : List Bool → SchedState → SchedState × List ℕ
  | [], s => (s, [])
  | b :: bs, s =>
      let step := schedStep len b s
      let rest := schedRun len bs step.1
      (rest.1, step.2.toList ++ rest.2)

/-- The cursor of a scheduler state; the done state sits at len. -/
def schedCursor (len : ℕ) : SchedState → ℕ
  | SchedState.processing i => i
  | SchedState.suspended i => i
  | SchedState.done => len

/-- Events of the pauseScript timer (lines 242-251): clearInterval and the
doScript resume call. -/
inductive TEvent
  | cancel
  | resume
deriving DecidableEq

/-- The pauseScript interval callback over a list of checkTime values, one
per minute tick, with the timer-armed flag: while armed, a tick that sees an
open window first cancels the interval and then resumes; afterwards the
timer is disarmed and later ticks do nothing. -/
def pauseTicks : List Bool → Bool → List TEvent
  | [], _ => []
  | t :: ts, armed =>
      if armed && t then TEvent.cancel :: TEvent.resume :: pauseTicks ts false
      else pauseTicks ts armed

/-- A fragment of JavaScript expression syntax, enough for the body of the
logError then-callback (line 139). -/
inductive JsExpr
  | lit (s : String)
  | boolLit (b : Bool)
  | ident (x : String)
  | member (e : JsExpr) (f : String)
  | call2 (f : JsExpr) (a : JsExpr) (b : JsExpr)

/-- Name resolution for an expression: evaluation fails with a
ReferenceError at the first identifier not bound in the scope chain
(callee first, then arguments left to right, as JavaScript evaluates). -/
def evalExpr (scope : List String) : JsExpr → Except String Unit
  | JsExpr.lit _ => Except.ok ()
  | JsExpr.boolLit _ => Except.ok ()
  | JsExpr.ident x =>
      if scope.contains x then Except.ok ()
      else Except.error ("ReferenceError: " ++ x ++ " is not defined")
  | JsExpr.member e _ => evalExpr scope e
  | JsExpr.call2 f a b => do
      evalExpr scope f
      evalExpr scope a
      evalExpr scope b

/-- The identifiers an expression references. -/
def identsOf : JsExpr → List String
  | JsExpr.lit _ => []
  | JsExpr.boolLit _ => []
  | JsExpr.ident x => [x]
  | JsExpr.member e _ => identsOf e
  | JsExpr.call2 f a b => identsOf f ++ identsOf a ++ identsOf b

/-- The names in scope inside the then-callback of logError (lines 130-141):
the Node globals used by the file, every module-level const (lines 3-41),
every hoisted function declaration, and the url parameter of logError. The
callback itself binds nothing. -/
def logErrorCallbackScope : List String :=
  ["require", "process", "console",
   "lighthouse", "chromeLauncher", "red", "yellow", "green", "italic", "bold",
   "path", "fs", "assetSaver", "commander", "computeGmean", "createCsvWriter",
   "urlsToCheck", "moment", "lighthouseConfig", "storedLogs", "csvWriter",
   "runLighthouse", "condenseReport", "oneliner", "addToLogs", "logError",
   "formatScore", "formatAudit", "colorizeByScore", "formatDuration",
   "formatWeightedScore", "formatWeight", "formatBytes", "multipleTimes",
   "checkTime", "doScript", "pauseScript", "url"]

/-- The body of the then-callback at line 139:
console.log("Logged error", formatScore(r.performanceScore, false)). -/
def logErrorThenBody : JsExpr :=
  JsExpr.call2 (JsExpr.member (JsExpr.ident "console") "log")
    (JsExpr.lit "Logged error")
    (JsExpr.call2 (JsExpr.ident "formatScore")
      (JsExpr.member (JsExpr.ident "r") "performanceScore")
      (JsExpr.boolLit false))

/-- Claim C3: checkTime returns true iff the hour lies in the closed
interval [9, 18] and the weekday is neither 0 nor 6; in particular it is
false on weekday 0 or 6 at every hour, and false on weekdays at every hour
strictly before 9 or strictly after 18. -/
theorem checkTime_window_iff (hour weekday : ℕ) :
    (checkTime hour weekday = true ↔
      (9 ≤ hour ∧ hour ≤ 18 ∧ weekday ≠ 0 ∧ weekday ≠ 6))
    ∧ (weekday = 0 ∨ weekday = 6 → checkTime hour weekday = false)
    ∧ (weekday ≠ 0 → weekday ≠ 6 → hour < 9 ∨ 18 < hour →
        checkTime hour weekday = false) := by
  refine ⟨?_, ?_, ?_⟩
  · simp [checkTime, and_assoc]
  · rintro (rfl | rfl) <;> simp [checkTime]
  · intro h0 h6 hh
    simp only [checkTime, Bool.and_eq_false_iff, decide_eq_false_iff_not, not_le]
    rcases hh with hh | hh
    · exact Or.inl (Or.inl (Or.inl hh))
    · exact Or.inl (Or.inl (Or.inr hh))

/-- Witness for checkTime_window_iff at concrete times: 10:00 on weekday 3
is inside the window, any hour on weekday 0 is outside, and 08:00 on
weekday 3 is outside. -/
theorem checkTime_window_iff_witness :
    (checkTime 10 3 = true ↔ (9 ≤ 10 ∧ 10 ≤ 18 ∧ (3 : ℕ) ≠ 0 ∧ (3 : ℕ) ≠ 6))
    ∧ checkTime 14 0 = false
    ∧ checkTime 8 3 = false :=
  ⟨(checkTime_window_iff 10 3).1,
   (checkTime_window_iff 14 0).2.1 (Or.inl rfl),
   (checkTime_window_iff 8 3).2.2 (by decide) (by decide) (Or.inl (by decide))⟩

/-- Claim C8: for one suspension instance, the pauseScript interval fires
the resume action at most once: a disarmed timer produces no events, and an
armed timer either never fires or produces exactly one clearInterval
immediately followed by one resume, never firing again afterwards. -/
theorem pauseTicks_resume_once :
    (∀ ts : List Bool, pauseTicks ts false = [])
    ∧ (∀ ts : List Bool, pauseTicks ts true = []
        ∨ pauseTicks ts true = [TEvent.cancel, TEvent.resume])
    ∧ (∀ (ts : List Bool) (armed : Bool),
        (pauseTicks ts armed).count TEvent.resume ≤ 1) := by
  have hoff : ∀ ts : List Bool, pauseTicks ts false = [] := by
    intro ts
    induction ts with
    | nil => rfl
    | cons t ts ih => simp [pauseTicks, ih]
  have hon : ∀ ts : List Bool, pauseTicks ts true = []
      ∨ pauseTicks ts true = [TEvent.cancel, TEvent.resume] := by
    intro ts
    induction ts with
    | nil => exact Or.inl rfl
    | cons t ts ih =>
      cases t with
      | false => simpa [pauseTicks] using ih
      | true => exact Or.inr (by simp [pauseTicks, hoff ts])
  refine ⟨hoff, hon, ?_⟩
  intro ts armed
  cases armed with
  | false => simp [hoff ts]
  | true => rcases hon ts with h | h <;> simp [h]

/-- Claim C9: the then-callback of logError references the identifier r,
which is bound nowhere in its scope chain, so evaluating the callback body
raises a ReferenceError before console.log can run: no score value is
logged on the all-attempts-failed path. -/
theorem logError_callback_reference_error :
    identsOf logErrorThenBody = ["console", "formatScore", "r"]
    ∧ logErrorCallbackScope.contains "r" = false
    ∧ evalExpr logErrorCallbackScope logErrorThenBody
        = Except.error "ReferenceError: r is not defined" :=
  ⟨rfl, by decide, rfl⟩

/-- Claim C10: the rendered performance score is the decimal string of
floor(score * 100) left-padded to width 3; scores lie in [0, 1], every
score strictly below 1 floors to at most 99, the floor reaches 100 exactly
at score 1, and formatScore 1 renders as the string 100. -/
theorem formatScore_truncates (s : ℚ) (h0 : 0 ≤ s) (h1 : s ≤ 1) :
    formatScore s = padStart (toString (Int.floor (s * 100))) 3
    ∧ (s < 1 → Int.floor (s * 100) ≤ 99)
    ∧ (Int.floor (s * 100) = 100 ↔ s = 1)
    ∧ formatScore 1 = "100" := by
  have hfl : Int.floor ((1 : ℚ) * 100) = 100 := by norm_num
  refine ⟨rfl, ?_, ?_, by rw [formatScore, hfl]; decide⟩
  · intro hlt
    have h : s * 100 < 100 := by nlinarith
    have : Int.floor (s * 100) < 100 := by
      exact_mod_cast Int.floor_lt.mpr (by exact_mod_cast h)
    omega
  · constructor
    · intro hfl
      have hle : (100 : ℤ) ≤ Int.floor (s * 100) := hfl.ge
      have : (100 : ℚ) ≤ s * 100 := by exact_mod_cast Int.le_floor.mp hle
      have : (1 : ℚ) ≤ s := by linarith
      linarith [le_antisymm h1 this]
    · rintro rfl
      norm_num

/-- Witness for formatScore_truncates at score one half: floor gives 50 and
the render claims hold there. -/
theorem formatScore_truncates_witness :
    formatScore (1 / 2) = padStart (toString (Int.floor ((1 / 2 : ℚ) * 100))) 3
    ∧ ((1 / 2 : ℚ) < 1 → Int.floor ((1 / 2 : ℚ) * 100) ≤ 99)
    ∧ (Int.floor ((1 / 2 : ℚ) * 100) = 100 ↔ (1 / 2 : ℚ) = 1)
    ∧ formatScore 1 = "100" :=
  formatScore_truncates (1 / 2) (by norm_num) (by norm_num)

/-- The log of a product of positive reals is the sum of the logs. -/
lemma log_list_prod (xs : List ℝ) (h : ∀ x ∈ xs, 0 < x) :
    Real.log xs.prod = (xs.map Real.log).sum := by
  induction xs with
  | nil => simp
  | cons x rest ih =>
    have hx : x ≠ 0 := ne_of_gt (h x (List.mem_cons_self x rest))
    have hrest : ∀ y ∈ rest, 0 < y := fun y hy => h y (List.mem_cons_of_mem x hy)
    have hprod : rest.prod ≠ 0 := ne_of_gt (List.prod_pos hrest)
    simp [List.prod_cons, Real.log_mul hx hprod, ih hrest]

/-- On a list of positive reals, computeGmean agrees with the n-th root of
the product, written as a real power. -/
lemma computeGmean_eq_rpow (xs : List ℝ) (h : ∀ x ∈ xs, 0 < x) :
    computeGmean xs = xs.prod ^ ((1 : ℝ) / (xs.length : ℝ)) := by
  rw [computeGmean, Real.rpow_def_of_pos (List.prod_pos h), log_list_prod xs h,
    mul_one_div]

/-- computeGmean is invariant under permutation of its input list. -/
lemma computeGmean_perm (xs ys : List ℝ) (h : xs.Perm ys) :
    computeGmean xs = computeGmean ys := by
  rw [computeGmean, computeGmean, h.length_eq, (h.map Real.log).sum_eq]

/-- Claim C2: on a non-empty batch of positive-valued samples, every field
of the aggregate equals exp of the mean of the logs of that field across
the batch, equivalently the n-th root of the product; each field depends
only on the list of that field across the batch (no cross-field coupling);
and the aggregate is invariant under reordering of the batch. -/
theorem aggregateSamples_gmean_fields (samples samples2 : List MetricSample)
    (hne : samples ≠ [])
    (hpos : ∀ s ∈ samples, ∀ m, 0 < s m)
    (hperm : samples.Perm samples2) :
    (∀ m : Metric,
      aggregateSamples samples m
        = Real.exp (((samples.map (fun s => s m)).map Real.log).sum / ((samples.length : ℝ)))
      ∧ aggregateSamples samples m
        = (samples.map (fun s => s m)).prod ^ ((1 : ℝ) / (samples.length : ℝ)))
    ∧ (∀ (m : Metric) (other : List MetricSample),
        samples.map (fun s => s m) = other.map (fun s => s m) →
        aggregateSamples samples m = aggregateSamples other m)
    ∧ aggregateSamples samples = aggregateSamples samples2 := by
  have hposm : ∀ m : Metric, ∀ x ∈ samples.map (fun s => s m), 0 < x := by
    intro m x hx
    obtain ⟨s, hs, rfl⟩ := List.mem_map.mp hx
    exact hpos s hs m
  refine ⟨fun m => ⟨?_, ?_⟩, fun m other hmap => ?_, funext fun m => ?_⟩
  · rw [aggregateSamples, computeGmean, List.length_map]
  · rw [aggregateSamples, computeGmean_eq_rpow _ (hposm m), List.length_map]
  · rw [aggregateSamples, aggregateSamples, hmap]
  · exact computeGmean_perm _ _ (hperm.map (fun s => s m))

/-- Witness for aggregateSamples_gmean_fields on the concrete batch of two
constant samples valued two and eight. -/
theorem aggregateSamples_gmean_fields_witness :
    (∀ m : Metric,
      aggregateSamples [fun _ => (2 : ℝ), fun _ => 8] m
        = Real.exp ((([fun _ => (2 : ℝ), fun _ => 8].map (fun s => s m)).map Real.log).sum
            / (([fun _ => (2 : ℝ), fun _ => 8] : List MetricSample).length : ℝ))
      ∧ aggregateSamples [fun _ => (2 : ℝ), fun _ => 8] m
        = ([fun _ => (2 : ℝ), fun _ => 8].map (fun s => s m)).prod
            ^ ((1 : ℝ) / (([fun _ => (2 : ℝ), fun _ => 8] : List MetricSample).length : ℝ)))
    ∧ (∀ (m : Metric) (other : List MetricSample),
        [fun _ => (2 : ℝ), fun _ => 8].map (fun s => s m) = other.map (fun s => s m) →
        aggregateSamples [fun _ => (2 : ℝ), fun _ => 8] m = aggregateSamples other m)
    ∧ aggregateSamples [fun _ => (2 : ℝ), fun _ => 8]
        = aggregateSamples [fun _ => (8 : ℝ), fun _ => 2] :=
  aggregateSamples_gmean_fields [fun _ => (2 : ℝ), fun _ => 8] [fun _ => (8 : ℝ), fun _ => 2]
    (by simp)
    (by
      intro s hs m
      rcases List.mem_cons.mp hs with rfl | hs
      · norm_num
      · rcases List.mem_cons.mp hs with rfl | hs
        · norm_num
        · simp at hs)
    (List.Perm.swap _ _ _)

/-- Claim C7: aggregating a batch of exactly one positive-valued sample
returns that sample unchanged, field by field. -/
theorem aggregateSamples_singleton (s : MetricSample) (hpos : ∀ m, 0 < s m) :
    aggregateSamples [s] = s := by
  funext m
  show computeGmean [s m] = s m
  rw [computeGmean]
  simp [Real.exp_log (hpos m)]

/-- Witness for aggregateSamples_singleton on the constant sample valued
three. -/
theorem aggregateSamples_singleton_witness :
    aggregateSamples [fun _ => (3 : ℝ)] = (fun _ => (3 : ℝ)) :=
  aggregateSamples_singleton (fun _ => (3 : ℝ)) (fun _ => by norm_num)

/-- The value runLighthouse hands back to multipleTimes is exactly the
attempt outcome. -/
lemma runLighthouse_snd (url : String) (o : Option MetricSample) :
    (runLighthouse url o).2 = o := by
  cases o <;> rfl

/-- countKind distributes over list append. -/
lemma countKind_append (k : RecordKind) (l1 l2 : List RunRecord) :
    countKind k (l1 ++ l2) = countKind k l1 + countKind k l2 :=
  List.countP_append _ _ _

/-- Among the per-attempt records, the error rows are exactly the failed
attempts: logError writes one row per falsy lighthouse result. -/
lemma countKind_error_attempts (url : String) (attempts : List (Option MetricSample)) :
    countKind RecordKind.errorKind
        ((attempts.map (fun o => (runLighthouse url o).1)).flatten)
      = attempts.countP (fun o => o.isNone) := by
  induction attempts with
  | nil => rfl
  | cons o rest ih =>
    cases o <;>
      simp [runLighthouse, countKind, List.countP_cons] at ih ⊢ <;> omega

/-- Among the per-attempt records, the PARTIAL rows are exactly the
successful attempts. -/
lemma countKind_partial_attempts (url : String) (attempts : List (Option MetricSample)) :
    countKind RecordKind.partialKind
        ((attempts.map (fun o => (runLighthouse url o).1)).flatten)
      = attempts.countP (fun o => o.isSome) := by
  induction attempts with
  | nil => rfl
  | cons o rest ih =>
    cases o <;>
      simp [runLighthouse, countKind, List.countP_cons] at ih ⊢ <;> omega

/-- No per-attempt record is a GMEAN row. -/
lemma countKind_aggregate_attempts (url : String) (attempts : List (Option MetricSample)) :
    countKind RecordKind.aggregateKind
        ((attempts.map (fun o => (runLighthouse url o).1)).flatten) = 0 := by
  induction attempts with
  | nil => rfl
  | cons o rest ih =>
    cases o <;> simp [runLighthouse, countKind, List.countP_cons] at ih ⊢ <;> omega

/-- The collected truthy results of the attempt loop are the successful
outcomes themselves. -/
lemma multipleResults_eq (url : String) (attempts : List (Option MetricSample)) :
    attempts.filterMap (fun o => (runLighthouse url o).2) = attempts.filterMap id := by
  have hfun : (fun o => (runLighthouse url o).2)
      = (id : Option MetricSample → Option MetricSample) :=
    funext fun o => runLighthouse_snd url o
  rw [hfun]

/-- Error-row count of one full multipleTimes pass over an attempt list:
one error row per failed attempt, and the optional GMEAN row adds none. -/
lemma countKind_error_multipleTimesOnList (url : String)
    (attempts : List (Option MetricSample)) :
    countKind RecordKind.errorKind (multipleTimesOnList url attempts)
      = attempts.countP (fun o => o.isNone) := by
  rw [multipleTimesOnList]
  by_cases h : (attempts.filterMap (fun o => (runLighthouse url o).2)).isEmpty
  · rw [if_pos h]
    exact countKind_error_attempts url attempts
  · rw [if_neg h, countKind_append, countKind_error_attempts url attempts]
    simp [countKind]

/-- PARTIAL-row count of one full multipleTimes pass: one per successful
attempt. -/
lemma countKind_partial_multipleTimesOnList (url : String)
    (attempts : List (Option MetricSample)) :
    countKind RecordKind.partialKind (multipleTimesOnList url attempts)
      = attempts.countP (fun o => o.isSome) := by
  rw [multipleTimesOnList]
  by_cases h : (attempts.filterMap (fun o => (runLighthouse url o).2)).isEmpty
  · rw [if_pos h]
    exact countKind_partial_attempts url attempts
  · rw [if_neg h, countKind_append, countKind_partial_attempts url attempts]
    simp [countKind]

/-- GMEAN-row count of one full multipleTimes pass: one if any attempt
succeeded, zero otherwise. -/
lemma countKind_aggregate_multipleTimesOnList (url : String)
    (attempts : List (Option MetricSample)) :
    countKind RecordKind.aggregateKind (multipleTimesOnList url attempts)
      = if (attempts.filterMap id).isEmpty then 0 else 1 := by
  rw [multipleTimesOnList, multipleResults_eq]
  by_cases h : (attempts.filterMap id).isEmpty
  · rw [if_pos h, if_pos h]
    exact countKind_aggregate_attempts url attempts
  · rw [if_neg h, if_neg h, countKind_append, countKind_aggregate_attempts url attempts]
    simp [countKind]

/-- Counterexample to claim C1: with the oracle on which all three attempts
fail, three error rows are persisted for the URL, not exactly one, because
logError runs once per failed attempt inside runLighthouse. -/
theorem allFail_three_error_records :
    countKind RecordKind.errorKind (multipleTimes "u" (fun _ => none)) = 3
    ∧ countKind RecordKind.errorKind (multipleTimes "u" (fun _ => none)) ≠ 1 := by
  have h : countKind RecordKind.errorKind (multipleTimes "u" (fun _ => none)) = 3 := by
    rw [multipleTimes, countKind_error_multipleTimesOnList]
    rfl
  exact ⟨h, by rw [h]; decide⟩

/-- Claim C1 as amended: error rows are written once per failed attempt, so
a URL whose three attempts all fail gets exactly three error rows and zero
GMEAN and zero PARTIAL rows; in general, for every URL the number of error
rows equals the number of failed attempts, so a URL with at least one
success still gets one error row per failure rather than none. -/
theorem error_record_per_failed_attempt (url : String)
    (oracle : ℕ → Option MetricSample)
    (hfail : ∀ i < attemptsPerUrl, oracle i = none) :
    countKind RecordKind.errorKind (multipleTimes url oracle) = attemptsPerUrl
    ∧ countKind RecordKind.aggregateKind (multipleTimes url oracle) = 0
    ∧ countKind RecordKind.partialKind (multipleTimes url oracle) = 0
    ∧ ∀ (url2 : String) (oracle2 : ℕ → Option MetricSample),
        countKind RecordKind.errorKind (multipleTimes url2 oracle2)
          = ((List.range attemptsPerUrl).map oracle2).countP (fun o => o.isNone) := by
  have hatt : (List.range attemptsPerUrl).map oracle = [none, none, none] := by
    have h0 := hfail 0 (by decide)
    have h1 := hfail 1 (by decide)
    have h2 := hfail 2 (by decide)
    show [oracle 0, oracle 1, oracle 2] = [none, none, none]
    rw [h0, h1, h2]
  refine ⟨?_, ?_, ?_, ?_⟩
  · rw [multipleTimes, countKind_error_multipleTimesOnList, hatt]
    rfl
  · rw [multipleTimes, countKind_aggregate_multipleTimesOnList, hatt]
    rfl
  · rw [multipleTimes, countKind_partial_multipleTimesOnList, hatt]
    rfl
  · intro url2 oracle2
    rw [multipleTimes, countKind_error_multipleTimesOnList]

/-- Witness for error_record_per_failed_attempt at the all-fail oracle. -/
theorem error_record_per_failed_attempt_witness :
    countKind RecordKind.errorKind (multipleTimes "u" (fun _ => none)) = attemptsPerUrl
    ∧ countKind RecordKind.aggregateKind (multipleTimes "u" (fun _ => none)) = 0
    ∧ countKind RecordKind.partialKind (multipleTimes "u" (fun _ => none)) = 0
    ∧ ∀ (url2 : String) (oracle2 : ℕ → Option MetricSample),
        countKind RecordKind.errorKind (multipleTimes url2 oracle2)
          = ((List.range attemptsPerUrl).map oracle2).countP (fun o => o.isNone) :=
  error_record_per_failed_attempt "u" (fun _ => none) (fun _ _ => rfl)

/-- Claim C5: every URL processed inside the window gets exactly three
audit attempts; one PARTIAL row is persisted per successful attempt; and
exactly one GMEAN row is persisted iff at least one of the three attempts
succeeded. -/
theorem multipleTimes_three_attempts (url : String)
    (oracle : ℕ → Option MetricSample) :
    ((List.range attemptsPerUrl).map oracle).length = 3
    ∧ countKind RecordKind.partialKind (multipleTimes url oracle)
        = ((List.range attemptsPerUrl).map oracle).countP (fun o => o.isSome)
    ∧ (countKind RecordKind.aggregateKind (multipleTimes url oracle) = 1
        ↔ ∃ i < attemptsPerUrl, (oracle i).isSome = true) := by
  refine ⟨by simp [attemptsPerUrl], ?_, ?_⟩
  · rw [multipleTimes, countKind_partial_multipleTimesOnList]
  · rw [multipleTimes, countKind_aggregate_multipleTimesOnList]
    by_cases h : (((List.range attemptsPerUrl).map oracle).filterMap id).isEmpty
    · rw [if_pos h]
      rw [List.isEmpty_iff, List.filterMap_eq_nil_iff] at h
      constructor
      · intro h10
        exact absurd h10 (by decide)
      · rintro ⟨i, hi, hsome⟩
        have hnone : oracle i = none := by
          have hmem := h (oracle i) (List.mem_map_of_mem oracle (List.mem_range.mpr hi))
          simpa using hmem
        rw [hnone] at hsome
        simp at hsome
    · rw [if_neg h]
      refine ⟨fun _ => ?_, fun _ => rfl⟩
      rw [List.isEmpty_iff, List.filterMap_eq_nil_iff] at h
      push_neg at h
      obtain ⟨o, ho, hne⟩ := h
      obtain ⟨i, hi, rfl⟩ := List.mem_map.mp ho
      exact ⟨i, List.mem_range.mp hi, by simpa [Option.isSome_iff_ne_none] using hne⟩

/-- Claim C6: when the batch of successful samples is empty, no aggregate
is produced: the multipleTimes output is exactly the per-attempt records
with no GMEAN row appended, while the attempt failures are still recorded
as error rows, one per failed attempt. -/
theorem empty_batch_no_aggregate (url : String) (oracle : ℕ → Option MetricSample)
    (hempty : ((List.range attemptsPerUrl).map oracle).filterMap id = []) :
    countKind RecordKind.aggregateKind (multipleTimes url oracle) = 0
    ∧ multipleTimes url oracle
        = (((List.range attemptsPerUrl).map oracle).map
            (fun o => (runLighthouse url o).1)).flatten
    ∧ countKind RecordKind.errorKind (multipleTimes url oracle)
        = ((List.range attemptsPerUrl).map oracle).countP (fun o => o.isNone) := by
  refine ⟨?_, ?_, ?_⟩
  · rw [multipleTimes, countKind_aggregate_multipleTimesOnList, hempty]
    rfl
  · rw [multipleTimes, multipleTimesOnList, multipleResults_eq, hempty]
    rfl
  · rw [multipleTimes, countKind_error_multipleTimesOnList]

/-- Witness for empty_batch_no_aggregate at the all-fail oracle. -/
theorem empty_batch_no_aggregate_witness :
    countKind RecordKind.aggregateKind (multipleTimes "u" (fun _ => none)) = 0
    ∧ multipleTimes "u" (fun _ => none)
        = (((List.range attemptsPerUrl).map (fun _ => (none : Option MetricSample))).map
            (fun o => (runLighthouse "u" o).1)).flatten
    ∧ countKind RecordKind.errorKind (multipleTimes "u" (fun _ => none))
        = ((List.range attemptsPerUrl).map (fun _ => (none : Option MetricSample))).countP
            (fun o => o.isNone) :=
  empty_batch_no_aggregate "u" (fun _ => none) rfl

/-- Unfolding equation for one tick of schedRun. -/
lemma schedRun_cons (len : ℕ) (b : Bool) (bs : List Bool) (s : SchedState) :
    schedRun len (b :: bs) s
      = ((schedRun len bs (schedStep len b s).1).1,
         (schedStep len b s).2.toList ++ (schedRun len bs (schedStep len b s).1).2) :=
  rfl

/-- A tick that audits URL i: window open at a live cursor. -/
lemma schedStep_processing_open (len i : ℕ) (hi : i < len) :
    schedStep len true (SchedState.processing i)
      = (SchedState.processing (i + 1), some i) := by
  simp [schedStep, hi]

/-- A tick that suspends: window closed at a live cursor. -/
lemma schedStep_processing_closed (len i : ℕ) (hi : i < len) :
    schedStep len false (SchedState.processing i) = (SchedState.suspended i, none) := by
  simp [schedStep, hi]

/-- A tick at an exhausted cursor ends the loop whatever the window says. -/
lemma schedStep_processing_done (len i : ℕ) (b : Bool) (hi : ¬ i < len) :
    schedStep len b (SchedState.processing i) = (SchedState.done, none) := by
  simp [schedStep, hi]

/-- A suspended tick that sees an open window resumes at the same cursor. -/
lemma schedStep_suspended (len i : ℕ) (b : Bool) :
    schedStep len b (SchedState.suspended i)
      = (if b then SchedState.processing i else SchedState.suspended i, none) := by
  cases b <;> simp [schedStep]

/-- Over any sequence of window values, the scheduler audits a contiguous
ascending run of indices starting at its cursor, and its cursor advances by
exactly the number of audited URLs, never passing the end of the list. -/
lemma schedRun_range (len : ℕ) (bs : List Bool) :
    ∀ s : SchedState, schedCursor len s ≤ len →
      ∃ k, (schedRun len bs s).2 = List.range' (schedCursor len s) k
        ∧ schedCursor len (schedRun len bs s).1 = schedCursor len s + k
        ∧ schedCursor len s + k ≤ len := by
  induction bs with
  | nil =>
    intro s h
    exact ⟨0, by simp [schedRun], by simp [schedRun], by simpa⟩
  | cons b bs ih =>
    intro s h
    cases s with
    | processing i =>
      by_cases hi : i < len
      · cases b with
        | true =>
          obtain ⟨k, hk1, hk2, hk3⟩ :=
            ih (SchedState.processing (i + 1)) (by simp only [schedCursor]; omega)
          refine ⟨k + 1, ?_, ?_, ?_⟩
          · rw [schedRun_cons, schedStep_processing_open len i hi]
            simp only [schedCursor] at hk1 ⊢
            simp [hk1, List.range'_succ]
          · rw [schedRun_cons, schedStep_processing_open len i hi]
            simp only [schedCursor] at hk2 ⊢
            omega
          · simp only [schedCursor] at hk3 ⊢
            omega
        | false =>
          obtain ⟨k, hk1, hk2, hk3⟩ :=
            ih (SchedState.suspended i) (by simpa [schedCursor] using h)
          refine ⟨k, ?_, ?_, ?_⟩
          · rw [schedRun_cons, schedStep_processing_closed len i hi]
            simpa [schedCursor] using hk1
          · rw [schedRun_cons, schedStep_processing_closed len i hi]
            simpa [schedCursor] using hk2
          · simpa [schedCursor] using hk3
      · have hd := ih SchedState.done (by simp [schedCursor])
        obtain ⟨k, hk1, hk2, hk3⟩ := hd
        have hlen : i = len := by
          simp only [schedCursor] at h
          omega
        refine ⟨k, ?_, ?_, ?_⟩
        · rw [schedRun_cons, schedStep_processing_done len i b hi]
          simpa [schedCursor, hlen] using hk1
        · rw [schedRun_cons, schedStep_processing_done len i b hi]
          simpa [schedCursor, hlen] using hk2
        · simpa [schedCursor, hlen] using hk3
    | suspended i =>
      cases b with
      | true =>
        obtain ⟨k, hk1, hk2, hk3⟩ :=
          ih (SchedState.processing i) (by simpa [schedCursor] using h)
        refine ⟨k, ?_, ?_, ?_⟩
        · rw [schedRun_cons, schedStep_suspended len i true]
          simpa [schedCursor] using hk1
        · rw [schedRun_cons, schedStep_suspended len i true]
          simpa [schedCursor] using hk2
        · simpa [schedCursor] using hk3
      | false =>
        obtain ⟨k, hk1, hk2, hk3⟩ :=
          ih (SchedState.suspended i) (by simpa [schedCursor] using h)
        refine ⟨k, ?_, ?_, ?_⟩
        · rw [schedRun_cons, schedStep_suspended len i false]
          simpa [schedCursor] using hk1
        · rw [schedRun_cons, schedStep_suspended len i false]
          simpa [schedCursor] using hk2
        · simpa [schedCursor] using hk3
    | done =>
      obtain ⟨k, hk1, hk2, hk3⟩ := ih SchedState.done (by simp [schedCursor])
      refine ⟨k, ?_, ?_, ?_⟩
      · rw [schedRun_cons]
        simpa [schedStep, schedCursor] using hk1
      · rw [schedRun_cons]
        simpa [schedStep, schedCursor] using hk2
      · simpa [schedCursor] using hk3

/-- Claim C4: when the window policy forbids execution at cursor i, the
scheduler moves to suspended at the same i and audits nothing in that tick;
when the policy allows again it resumes processing at exactly i, and an
allowed processing tick audits exactly URL i before advancing to i plus
one; moreover over any policy sequence the audited indices from cursor i
form the contiguous run i, i plus one, and so on, with no index skipped and
none repeated. -/
theorem scheduler_suspend_resume (len i : ℕ) (hi : i < len) :
    schedStep len false (SchedState.processing i) = (SchedState.suspended i, none)
    ∧ schedStep len true (SchedState.suspended i) = (SchedState.processing i, none)
    ∧ schedStep len true (SchedState.processing i) = (SchedState.processing (i + 1), some i)
    ∧ ∀ bs : List Bool, ∃ k,
        (schedRun len bs (SchedState.processing i)).2 = List.range' i k := by
  refine ⟨by simp [schedStep, hi], by simp [schedStep], by simp [schedStep, hi], ?_⟩
  intro bs
  obtain ⟨k, hk, -, -⟩ := schedRun_range len bs (SchedState.processing i) (le_of_lt hi)
  exact ⟨k, by simpa [schedCursor] using hk⟩

/-- Witness for scheduler_suspend_resume with two URLs at cursor zero. -/
theorem scheduler_suspend_resume_witness :
    schedStep 2 false (SchedState.processing 0) = (SchedState.suspended 0, none)
    ∧ schedStep 2 true (SchedState.suspended 0) = (SchedState.processing 0, none)
    ∧ schedStep 2 true (SchedState.processing 0) = (SchedState.processing 1, some 0)
    ∧ ∀ bs : List Bool, ∃ k,
        (schedRun 2 bs (SchedState.processing 0)).2 = List.range' 0 k :=
  scheduler_suspend_resume 2 0 (by decide)

end LhAudit
